import Mathlib

/-!
Verification of the duplicate-detection / library-extraction / patch-application
pipeline of the pyRevitFoundryMCP repository, as a shallow embedding in Lean 4.

Embedding conventions:
* Filesystem paths are lists of components; a filesystem is an association list
  from resolved absolute path components to file text (whole-file contents).
* Python `ast.parse` is an external collaborator (the standard library); it is
  modelled as an explicit oracle `PyParse : String → Option (List FuncDef)`
  giving, for a file text, the list of function-definition nodes in `ast.walk`
  order (`none` models a `SyntaxError`).  All repository code that consumes the
  parse result is translated faithfully over this oracle.
* Machine-level details that no claim depends on (sha256 truncation collisions,
  symlinks, OS errors other than missing files) are documented at the
  definition that abstracts them.
-/

namespace Foundry

/-! ## String helpers (Python semantics, structurally recursive so that every
concrete run reduces) -/

/-- Whether `cand` occurs at the head of `l`, character by character. -/
def charListHasLead : List Char → List Char → Bool
  | [], _ => true
  | _ :: _, [] => false
  | a :: as, b :: bs => a == b && charListHasLead as bs

/-- Whether `needle` occurs contiguously anywhere in the character list
(Python `needle in hay` on strings). -/
def charListContains (needle : List Char) : List Char → Bool
  | [] => needle.isEmpty
  | c :: t => charListHasLead needle (c :: t) || charListContains needle t

/-- Python substring test `needle in hay`. -/
def strContains (hay needle : String) : Bool := charListContains needle.data hay.data

/-- Python `s.startswith(pre)`. -/
def strStartsWith (s pre : String) : Bool := charListHasLead pre.data s.data

/-- Python `s.strip()` (whitespace on both ends). -/
def pyStrip (s : String) : String :=
  String.mk (((s.data.dropWhile Char.isWhitespace).reverse.dropWhile
    Char.isWhitespace).reverse)

/-- Python `s.rstrip()` (whitespace on the right). -/
def pyRstrip (s : String) : String :=
  String.mk ((s.data.reverse.dropWhile Char.isWhitespace).reverse)

/-- Python `s.lower()` (ASCII; the modelled paths are ASCII). -/
def strToLower (s : String) : String := String.mk (s.data.map Char.toLower)

/-- Split a character list on a separator character; always returns at least
one (possibly empty) group, like Python/Lean string splitting. -/
def splitOnChar (sep : Char) : List Char → List (List Char)
  | [] => [[]]
  | c :: rest =>
    if c = sep then [] :: splitOnChar sep rest
    else
      match splitOnChar sep rest with
      | [] => [[c]]
      | g :: gs => (c :: g) :: gs

/-- Replacement of every non-overlapping occurrence of `pat` by `rep`, left to
right, with explicit fuel (an upper bound on the scan length) so the
definition is structurally recursive.  With `fuel = l.length` this is Python
`s.replace(pat, rep)` for non-empty `pat`. -/
def replaceFuel (pat rep : List Char) : Nat → List Char → List Char
  | 0, l => l
  | _ + 1, [] => []
  | fuel + 1, c :: rest =>
    if !pat.isEmpty && charListHasLead pat (c :: rest) then
      rep ++ replaceFuel pat rep fuel ((c :: rest).drop pat.length)
    else c :: replaceFuel pat rep fuel rest

/-- Python `s.replace(pat, rep)` (for the non-empty patterns the code uses). -/
def strReplace (s pat rep : String) : String :=
  String.mk (replaceFuel pat.data rep.data s.data.length s.data)

/-! ## Path model (pathlib.Path joining, `resolve()`, and rendering) -/

/-- Components of a path string: split on "/", dropping empty components and
"." (which `pathlib.Path` normalizes away at construction).  ".." is kept,
exactly as `Path` keeps it until `resolve()`. -/
def splitPath (s : String) : List String :=
  ((splitOnChar '/' s.data).map String.mk).filter (fun c => c ≠ "" && c ≠ ".")

/-- A path string is absolute when it starts with "/" (POSIX). -/
def isAbsPath (s : String) : Bool := strStartsWith s "/"

/-- Python `Path(root) / rel`: an absolute right operand replaces the root,
otherwise components are concatenated (no ".." processing yet). -/
def joinPath (root : List String) (rel : String) : List String :=
  if isAbsPath rel then splitPath rel else root ++ splitPath rel

/-- One step of lexical resolution: ".." pops the last component (a no-op at
the filesystem root, as in `Path("/..").resolve()`). -/
def resolveStep (acc : List String) (c : String) : List String :=
  if c = ".." then acc.dropLast else acc ++ [c]

/-- Lexical `Path.resolve()`: process ".." components left to right.  Symlinks
are not modelled (none exist in the modelled repositories). -/
def resolveComps (comps : List String) : List String := comps.foldl resolveStep []

/-- Render components as the `str()` of an absolute POSIX path. -/
def renderPath (comps : List String) : String := "/" ++ String.intercalate "/" comps

/-- The containment check used by `PatchEngine.create_add_file_patch`,
`create_edit_patch` and `apply_patches`:
`str((repo_root / rel).resolve()).startswith(str(repo_root))`. -/
def insideRepoCheck (root : List String) (rel : String) : Bool :=
  strStartsWith (renderPath (resolveComps (joinPath root rel))) (renderPath root)

/-- Boolean test that `root` is an initial segment of `target`, component by
component. -/
def listLeads : List String → List String → Bool
  | [], _ => true
  | _ :: _, [] => false
  | a :: as, b :: bs => a == b && listLeads as bs

/-- The spec-side containment property: `target` lies strictly inside `root`
(component-wise descendant and not the root itself). -/
def isStrictDescendant (root target : List String) : Prop :=
  listLeads root target = true ∧ root ≠ target

instance instDecidableStrictDescendant (root target : List String) :
    Decidable (isStrictDescendant root target) :=
  decidable_of_iff (listLeads root target = true ∧ root ≠ target) Iff.rfl

/-- Python `str.splitlines()` for "\n"-separated text: no trailing empty
element is produced for text ending in a newline.  (The modelled sources are
"\n"-only; "\r" line boundaries are not modelled.) -/
def splitlines (s : String) : List String :=
  if s = "" then []
  else
    let parts := (splitOnChar '\n' s.data).map String.mk
    if parts.getLast? = some "" then parts.dropLast else parts

/-- Python `"\n".join(lines) + ("\n" if lines else "")`, the re-serialization
used throughout the extraction engine and the patch engine. -/
def joinWithTrailing (lines : List String) : String :=
  if lines.isEmpty then "" else String.intercalate "\n" lines ++ "\n"

/-- Lexicographic (code-point) strict order on strings, as Python compares
strings. -/
def charListLt : List Char → List Char → Bool
  | [], [] => false
  | [], _ :: _ => true
  | _ :: _, [] => false
  | a :: as, b :: bs => a < b || (a == b && charListLt as bs)

/-- Boolean string strict order. -/
def strLtB (a b : String) : Bool := charListLt a.data b.data

/-- Stable insertion of a string into an ascending-sorted list. -/
def insertStr (s : String) : List String → List String
  | [] => [s]
  | t :: ts => if strLtB s t then s :: t :: ts else t :: insertStr s ts

/-- Python `sorted` on a list of strings. -/
def sortStrings (l : List String) : List String := l.foldr insertStr []

/-- Python `repr`-style rendering of a list of strings, as `"%s" % sorted(names)`
produces inside an error message: `["[", "'a', 'b'", "]"]` shape. -/
def quoteJoin : List String → String
  | [] => ""
  | [n] => "\x27" ++ n ++ "\x27"
  | n :: rest => "\x27" ++ n ++ "\x27" ++ ", " ++ quoteJoin rest

/-- Rendering of a Python list of strings via `%s` formatting. -/
def pyStrListRepr (names : List String) : String := "[" ++ quoteJoin names ++ "]"

/-! ## Python AST model (the `ast` standard-library collaborator) -/

/-- Statement skeleton: exactly the node kinds `_normalize_ast` in
src/foundry_core/analyzers/duplicate_analyzer.py distinguishes; every other
statement kind normalizes to the empty string and is `other`. -/
inductive PyStmt where
  | assign
  | expr
  | ret
  | ifS (body : List PyStmt)
  | defS (args : Nat) (body : List PyStmt)
  | other

/-- One `ast.FunctionDef` node: 1-based start line, name, number of positional
arguments, immediate body statements, and the optional `end_lineno`
(absent models an AST lacking that attribute, as `getattr(node, "end_lineno", …)`
tolerates). -/
structure FuncDef where
  lineno : Nat
  name : String
  args : Nat
  body : List PyStmt
  endLineno : Option Nat

/-- The `ast.parse` + `ast.walk` collaborator: for a file text, the function
definition nodes in walk order, or `none` for a `SyntaxError`. -/
abbrev PyParse := String → Option (List FuncDef)

mutual

/-- Translation of `_normalize_ast` (duplicate_analyzer.py): normalize a node
to its control-shape string, discarding identifiers and literals. -/
def normalizeStmt : PyStmt → String
  | .assign => "assign"
  | .expr => "expr"
  | .ret => "return"
  | .ifS body => "if" ++ normalizeStmtList body
  | .defS n body => "def(" ++ toString n ++ "):" ++ normalizeStmtList body
  | .other => ""

/-- Concatenated normalization of a statement list (the `"".join` over a body). -/
def normalizeStmtList : List PyStmt → String
  | [] => ""
  | s :: rest => normalizeStmt s ++ normalizeStmtList rest

end

/-- Normalization of a whole function definition node. -/
def normalizeFunc (f : FuncDef) : String := normalizeStmt (.defS f.args f.body)

/-- Translation of `_hash_body`: `hashlib.sha256(body.encode()).hexdigest()[:16]`.
The hash is abstracted as the identity encoding: it is injective on the bodies
the analyzer feeds it in this development, and no claim here depends on the
truncated-digest collisions the real function could in principle produce. -/
def hashBody (body : String) : String := body

/-! ## Filesystem model -/

/-- A filesystem: association list from resolved absolute path components to
whole-file text. -/
abbrev FS := List (List String × String)

/-- Read a file's text, `none` when the path does not exist. -/
def fsLookup (fs : FS) (key : List String) : Option String :=
  match fs with
  | [] => none
  | (k, t) :: rest => if k = key then some t else fsLookup rest key

/-- Whole-file overwrite (creating the file when absent), as
`path.write_text(...)` after `mkdir(parents=True, exist_ok=True)`; directory
entries themselves are not modelled. -/
def fsWrite (fs : FS) (key : List String) (text : String) : FS :=
  match fs with
  | [] => [(key, text)]
  | (k, t) :: rest => if k = key then (k, text) :: rest else (k, t) :: fsWrite rest key text

/-! ## Structural duplicate detector (duplicate_analyzer.py) -/

/-- Translation of `_extract_functions`: `(lineno, name, normalized_body)` per
function in walk order; a missing file (`OSError`) or a parse failure
(`SyntaxError`) contributes nothing. -/
def extractFunctions (P : PyParse) (fs : FS) (path : List String) : List (Nat × String × String) :=
  match fsLookup fs path with
  | none => []
  | some text =>
    match P text with
    | none => []
    | some fl => fl.map (fun f => (f.lineno, f.name, normalizeFunc f))

/-- One location of a duplicated function: `{script, line, name}`. -/
structure Loc where
  script : String
  line : Nat
  name : String
deriving DecidableEq, Repr

/-- Clustering key: the body hash, paired with the function name exactly when
`same_name_only` (Python uses the bare hash or an `(h, name)` tuple; the mode
is fixed per call, so the two key shapes never mix). -/
abbrev ClusterKey := String × Option String

/-- One duplicate cluster: `{hash, locations}`. -/
structure Cluster where
  hash : String
  locations : List Loc
deriving DecidableEq, Repr

/-- One record of the analyzer's scan: a location together with its normalized
body string, before the length threshold and grouping are applied. -/
structure FnRec where
  script : String
  line : Nat
  name : String
  body : String
deriving DecidableEq, Repr

/-- Records contributed by one script path (`repo_root / sp` is resolved by the
OS on open; the filesystem is keyed by resolved components). -/
def fileRecords (P : PyParse) (fs : FS) (root : List String) (sp : String) : List FnRec :=
  (extractFunctions P fs (resolveComps (joinPath root sp))).map
    (fun r => { script := sp, line := r.1, name := r.2.1, body := r.2.2 })

/-- All records of the scan, in scan order of files and declaration order
within each file. -/
def flatRecords (P : PyParse) (fs : FS) (root : List String) (sps : List String) : List FnRec :=
  (sps.map (fileRecords P fs root)).flatten

/-- `hash_to_locs.setdefault(key, []).append(loc)`: append to an existing
key's list, or append a fresh key at the end (Python dicts preserve insertion
order, so keys stay in first-encounter order). -/
def groupInsert (key : ClusterKey) (loc : Loc) :
    List (ClusterKey × List Loc) → List (ClusterKey × List Loc)
  | [] => [(key, [loc])]
  | (k, ls) :: rest =>
    if k = key then (k, ls ++ [loc]) :: rest else (k, ls) :: groupInsert key loc rest

/-- The analyzer's grouping loop: skip records whose normalized body is shorter
than 20 characters, otherwise insert the location under its key. -/
def groupRecords (sno : Bool) : List FnRec → List (ClusterKey × List Loc) →
    List (ClusterKey × List Loc)
  | [], acc => acc
  | r :: rest, acc =>
    if r.body.length < 20 then groupRecords sno rest acc
    else
      groupRecords sno rest
        (groupInsert (hashBody r.body, if sno then some r.name else none)
          { script := r.script, line := r.line, name := r.name } acc)

/-- Keys with at least two locations become clusters, in key order. -/
def rawClusters (groups : List (ClusterKey × List Loc)) : List Cluster :=
  (groups.filter (fun g => 1 < g.2.length)).map
    (fun g => { hash := g.1.1, locations := g.2 })

/-- Stable descending insertion (by location count): an earlier cluster goes
before every later cluster of equal size. -/
def insertClusterDesc (c : Cluster) : List Cluster → List Cluster
  | [] => [c]
  | d :: ds =>
    if d.locations.length ≤ c.locations.length then c :: d :: ds
    else d :: insertClusterDesc c ds

/-- Stable sort descending by location count
(`clusters.sort(key=len(locations), reverse=True)`, Timsort being stable). -/
def sortClustersDesc (cs : List Cluster) : List Cluster := cs.foldr insertClusterDesc []

/-- `if limit is not None and limit > 0: clusters = clusters[:limit]`. -/
def applyLimit (limit : Option Int) (cs : List Cluster) : List Cluster :=
  match limit with
  | some l => if 0 < l then cs.take l.toNat else cs
  | none => cs

/-- One finding of the duplicate analyzer:
`{type: "duplicate", cluster, count}`. -/
structure Finding where
  ftype : String
  cluster : Cluster
  count : Nat
deriving DecidableEq, Repr

/-- The cluster list `analyze` returns for a given record list: group, keep
keys with two or more locations, sort descending by size, truncate. -/
def finalClusters (recs : List FnRec) (limit : Option Int) (sno : Bool) : List Cluster :=
  applyLimit limit (sortClustersDesc (rawClusters (groupRecords sno recs [])))

/-- The grouping, filtering, sorting, truncation and findings phases of
`DuplicateCodeAnalyzer.analyze`, on an explicit record list. -/
def analyzeRecords (recs : List FnRec) (limit : Option Int) (sno : Bool) :
    List Cluster × List Finding :=
  (finalClusters recs limit sno,
   (finalClusters recs limit sno).map
     (fun c => { ftype := "duplicate", cluster := c, count := c.locations.length }))

/-- Translation of `DuplicateCodeAnalyzer.analyze`.  `inv` is the inventory
delivered by the external scanner (`RepoIndexer(...).scan()["py_files"]`, spec
§6), used when `scriptPaths` is empty (Python: `if not script_paths`). -/
def dupAnalyze (P : PyParse) (fs : FS) (root : List String) (inv : List String)
    (scriptPaths : List String) (limit : Option Int) (sno : Bool) :
    List Cluster × List Finding :=
  analyzeRecords (flatRecords P fs root (if scriptPaths.isEmpty then inv else scriptPaths))
    limit sno

/-! ## Library-structure proposer (lib_structure.py) -/

/-- One entry of the proposer's `mapping` list:
`{function, from_scripts, suggested_module, same_name, mixed_names}`. -/
structure MapEntry where
  function : String
  fromScripts : List String
  suggestedModule : String
  sameName : Bool
  mixedNames : Option (List String)
deriving DecidableEq, Repr

/-- Target-module heuristic of `LibStructureSuggester.propose`: any script path
containing "ui" or "form" (case-insensitively) selects lib/ui.py; otherwise
"io" or "file" selects lib/io.py; otherwise lib/utils.py. -/
def chooseModule (scripts : List String) : String :=
  if scripts.any (fun s =>
      strContains (strToLower s) "ui" || strContains (strToLower s) "form") then
    "lib/ui.py"
  else if scripts.any (fun s =>
      strContains (strToLower s) "io" || strContains (strToLower s) "file") then
    "lib/io.py"
  else "lib/utils.py"

/-- The mapping phase of `LibStructureSuggester.propose` (the `suggested_tree`
and `findings` outputs are not consumed by the extraction engine and are not
modelled).  `sno` is the proposer's own `same_name_only` flag (the extraction
engine calls it with the default, `False`). -/
def proposeMapping (sno : Bool) : List Cluster → List MapEntry
  | [] => []
  | c :: rest =>
    let locs := c.locations
    if locs.length < 2 then proposeMapping sno rest
    else
      let names := locs.map Loc.name
      let uniqueNames := names.dedup
      let sameName := uniqueNames.length == 1
      if sno && !sameName then proposeMapping sno rest
      else
        let scripts := locs.map Loc.script
        { function := names.headD "?", fromScripts := scripts,
          suggestedModule := chooseModule scripts, sameName := sameName,
          mixedNames := if sameName then none else some (sortStrings uniqueNames) }
          :: proposeMapping sno rest

/-- Lookup in the extraction engine's
`{m["function"]: m["suggested_module"]}` dict comprehension: a later entry with
the same function name overwrites an earlier one. -/
def mappingLookup (entries : List MapEntry) (fn : String) : Option String :=
  ((entries.filter (fun e => e.function == fn)).getLast?).map MapEntry.suggestedModule

/-! ## Patch engine (patch_engine.py) -/

/-- One patch record `{path, diff, content, risk, summary}`; `content` is
`none` for externally supplied patches lacking the key (the engine's own
creators always set it). -/
structure Patch where
  path : String
  diff : String
  content : Option String
  risk : String
  summary : String
deriving DecidableEq, Repr

/-- Translation of `_make_unified_diff`: synthetic hunk header plus one line
per new line, marked " " when the line occurs anywhere in the old lines and
"+" otherwise.  `pathStr` is `str(path)` with backslashes replaced (a no-op on
POSIX). -/
def makeUnifiedDiff (pathStr : String) (oldLines newLines : List String) : String :=
  String.intercalate "\n"
    (("--- a/" ++ pathStr)
      :: ("+++ b/" ++ pathStr)
      :: ("@@ -1," ++ toString oldLines.length ++ " +1," ++ toString newLines.length ++ " @@")
      :: newLines.map (fun l => (if oldLines.contains l then " " else "+") ++ l)) ++ "\n"

/-- Translation of `PatchEngine.create_add_file_patch`; the raised
`ValueError("Path outside repo_root")` becomes the `Except.error` branch. -/
def createAddFilePatch (root : List String) (relPath content risk : String) :
    Except String Patch :=
  if insideRepoCheck root relPath then
    .ok { path := relPath,
          diff := makeUnifiedDiff (renderPath (joinPath root relPath)) []
            (if content = "" then [] else splitlines content),
          content := some content, risk := risk, summary := "Add " ++ relPath }
  else .error "Path outside repo_root"

/-- Translation of `PatchEngine.create_edit_patch`. -/
def createEditPatch (root : List String) (relPath oldContent newContent risk : String) :
    Except String Patch :=
  if insideRepoCheck root relPath then
    .ok { path := relPath,
          diff := makeUnifiedDiff (renderPath (joinPath root relPath))
            (if oldContent = "" then [] else splitlines oldContent)
            (if newContent = "" then [] else splitlines newContent),
          content := some newContent, risk := risk, summary := "Edit " ++ relPath }
  else .error "Path outside repo_root"

/-- Result of `PatchEngine.apply_patches`, with the filesystem made explicit:
`(applied_paths, errors)` plus the world after any writes. -/
structure ApplyResult where
  applied : List String
  errors : List String
  fs : FS
deriving DecidableEq, Repr

/-- The text written for one patch in write mode: `content` when present,
otherwise the "+"-lines reconstructed from the diff. -/
def patchWriteText (p : Patch) : String :=
  match p.content with
  | some c => c
  | none =>
      joinWithTrailing
        (((splitlines p.diff).filter
            (fun ln => strStartsWith ln "+" && !strStartsWith ln "+++")).map
          (fun ln => String.mk (ln.data.drop 1)))

/-- One iteration of the `apply_patches` loop. -/
def applyPatchStep (root : List String) (mode : String) (acc : ApplyResult) (p : Patch) :
    ApplyResult :=
  if !insideRepoCheck root p.path then
    { acc with errors := acc.errors ++ ["Skipped " ++ p.path ++ ": outside repo"] }
  else if mode = "write" then
    { acc with applied := acc.applied ++ [p.path],
               fs := fsWrite acc.fs (resolveComps (joinPath root p.path)) (patchWriteText p) }
  else
    { acc with applied := acc.applied ++ [p.path ++ " (dry-run)"] }

/-- Translation of `PatchEngine.apply_patches` (mode: dry_run | write). -/
def applyPatchesRun (root : List String) (fs : FS) (patches : List Patch) (mode : String) :
    ApplyResult :=
  patches.foldl (applyPatchStep root mode) { applied := [], errors := [], fs := fs }

/-! ## Extraction engine (extract_to_lib.py) -/

/-- Translation of `_get_function_source`: locate the function by name and
declaration line in the parsed file and return
`"\n".join(lines[lineno-1 : end_lineno])` (with `end_lineno` defaulting to
`lineno+1` when the node lacks the attribute); `none` on a missing file, a
parse failure, or no matching node. -/
def getFunctionSource (P : PyParse) (fs : FS) (path : List String)
    (funcName : String) (funcLine : Nat) : Option String :=
  match fsLookup fs path with
  | none => none
  | some text =>
    match P text with
    | none => none
    | some fl =>
      match fl.find? (fun f => f.name == funcName && f.lineno == funcLine) with
      | none => none
      | some f =>
        let lines := splitlines text
        let start := f.lineno - 1
        some (String.intercalate "\n" ((lines.drop start).take (f.endLineno.getD (f.lineno + 1) - start)))

/-- Translation of `_remove_function_from_source`: drop
`lines[lineno-1 : end_lineno]` (with `end_lineno` defaulting to the number of
lines, i.e. delete to end of file) and re-serialize; the text is returned
unchanged on a parse failure or when no node matches. -/
def removeFunctionFromSource (P : PyParse) (text funcName : String) (funcLine : Nat) : String :=
  match P text with
  | none => text
  | some fl =>
    match fl.find? (fun f => f.name == funcName && f.lineno == funcLine) with
    | none => text
    | some f =>
      let lines := splitlines text
      let start := f.lineno - 1
      joinWithTrailing (lines.take start ++ lines.drop (f.endLineno.getD lines.length))

/-- Whether a line is an import line for `_ensure_import`: its stripped form
starts with "import " or "from ". -/
def lineIsImport (l : String) : Bool :=
  strStartsWith (pyStrip l) "import " || strStartsWith (pyStrip l) "from "

/-- The scanning loop of `_ensure_import`: `i` is the current index and `last`
the last import-line index seen so far; the result is `none` when some line
contains the stripped import line as a substring (early return), otherwise the
final `last_import_idx`. -/
def ensureImportLoop (stripped : String) : List String → Nat → Option Nat → Option (Option Nat)
  | [], _, last => some last
  | l :: ls, i, last =>
    let last' := if lineIsImport l then some i else last
    if strContains l stripped then none else ensureImportLoop stripped ls (i + 1) last'

/-- Translation of `_ensure_import`: leave the lines unchanged when the import
is already present as a substring of some line; otherwise insert it after the
last import line, or prepend it when there is none. -/
def ensureImport (lines : List String) (importLine : String) : List String :=
  match ensureImportLoop (pyStrip importLine) lines 0 none with
  | none => lines
  | some (some i) => lines.take (i + 1) ++ [importLine] ++ lines.drop (i + 1)
  | some none => importLine :: lines

/-- One `{function, script, module}` entry of the `extracted` output. -/
structure ExtractedEntry where
  function : String
  script : String
  module : String
deriving DecidableEq, Repr

/-- Mutable state of the extraction loops: the script edit patches, the
`extracted` entries, the `errors` list, and the per-module accumulated
function sources (`lib_contents`, insertion-ordered like a Python dict). -/
structure ExtractState where
  scriptPatches : List Patch
  extracted : List ExtractedEntry
  errors : List String
  libContents : List (String × List String)
deriving DecidableEq, Repr

/-- `lib_contents.setdefault(mod, []).append(source)`. -/
def libAdd (libs : List (String × List String)) (mod : String) (src : String) :
    List (String × List String) :=
  match libs with
  | [] => [(mod, [src])]
  | (m, ss) :: rest =>
    if m = mod then (m, ss ++ [src]) :: rest else (m, ss) :: libAdd rest mod src

/-- The error message for a mixed-name cluster, from
`"Cluster %d: mixed function names %s (extract only same-name clusters)"`
formatted with the sorted distinct names. -/
def mixedNamesMsg (idx : Nat) (uniqueNames : List String) : String :=
  "Cluster " ++ toString idx ++ ": mixed function names "
    ++ pyStrListRepr (sortStrings uniqueNames) ++ " (extract only same-name clusters)"

/-- The per-location body of the extraction engine's inner loop: silently skip
a location with an empty script, a missing file, or a removal attempt that
leaves the text unchanged; otherwise rewrite the file (removal plus import
injection) and emit one high-risk edit patch and one `extracted` entry.  A
containment failure inside `create_edit_patch` raises, which the engine does
not catch (`Except.error`). -/
def locStep (P : PyParse) (fs : FS) (root : List String) (mod : String)
    (st : ExtractState) (loc : Loc) : Except String ExtractState :=
  if loc.script = "" then .ok st
  else
    match fsLookup fs (resolveComps (joinPath root loc.script)) with
    | none => .ok st
    | some text =>
      let newText := removeFunctionFromSource P text loc.name loc.line
      if newText = text then .ok st
      else
        let importLine := "from " ++ strReplace (strReplace mod "/" ".") ".py" ""
          ++ " import " ++ loc.name
        let newText2 := joinWithTrailing (ensureImport (splitlines newText) importLine)
        match createEditPatch root loc.script text newText2 "high" with
        | .error e => .error e
        | .ok patch =>
          .ok { st with
                scriptPatches := st.scriptPatches ++ [patch],
                extracted := st.extracted
                  ++ [{ function := loc.name, script := loc.script, module := mod }] }

/-- The inner loop over every location of a cluster. -/
def locSteps (P : PyParse) (fs : FS) (root : List String) (mod : String) :
    List Loc → ExtractState → Except String ExtractState
  | [], st => .ok st
  | l :: ls, st =>
    match locStep P fs root mod st l with
    | .error e => .error e
    | .ok st' => locSteps P fs root mod ls st'

/-- Whether the cluster at `idx` is selected by the optional index filter. -/
def idxSelected (clusterIndices : Option (List Nat)) (idx : Nat) : Bool :=
  match clusterIndices with
  | some is => is.contains idx
  | none => true

/-- The per-cluster body of `ExtractToLibEngine.extract`: skip unselected or
undersized clusters; reject mixed-name clusters with exactly one error; reject
a canonical location with a missing script or line, or whose source cannot be
extracted (including the empty string, which Python's `if not source` also
treats as a failure), with exactly one error; otherwise accumulate the
canonical source under the mapped module and run the location loop. -/
def clusterStep (P : PyParse) (fs : FS) (root : List String) (mapping : List MapEntry)
    (clusterIndices : Option (List Nat)) (st : ExtractState) (idx : Nat) (c : Cluster) :
    Except String ExtractState :=
  if !idxSelected clusterIndices idx then .ok st
  else
    let locs := c.locations
    if locs.length < 2 then .ok st
    else
      let uniqueNames := (locs.map Loc.name).dedup
      if 1 < uniqueNames.length then
        .ok { st with errors := st.errors ++ [mixedNamesMsg idx uniqueNames] }
      else
        let first := locs.headD { script := "", line := 0, name := "?" }
        if first.script = "" || first.line = 0 then
          .ok { st with errors := st.errors ++ ["Cluster " ++ toString idx ++ ": missing script/line"] }
        else
          let src := getFunctionSource P fs (resolveComps (joinPath root first.script))
            first.name first.line
          match src with
          | none =>
            .ok { st with errors := st.errors ++ ["Cluster " ++ toString idx
              ++ ": could not extract " ++ first.name ++ " from " ++ first.script] }
          | some s =>
            if s = "" then
              .ok { st with errors := st.errors ++ ["Cluster " ++ toString idx
                ++ ": could not extract " ++ first.name ++ " from " ++ first.script] }
            else
              let mod := (mappingLookup mapping first.name).getD "lib/utils.py"
              locSteps P fs root mod locs { st with libContents := libAdd st.libContents mod s }

/-- The outer loop over the (enumerated) clusters. -/
def processClusters (P : PyParse) (fs : FS) (root : List String) (mapping : List MapEntry)
    (clusterIndices : Option (List Nat)) : Nat → List Cluster → ExtractState →
    Except String ExtractState
  | _, [], st => .ok st
  | idx, c :: cs, st =>
    match clusterStep P fs root mapping clusterIndices st idx c with
    | .error e => .error e
    | .ok st' => processClusters P fs root mapping clusterIndices (idx + 1) cs st'

/-- The library-module patch loop: for each module bucket with non-blank
accumulated sources, append to an existing file (medium-risk edit patch) or
create it fresh (medium-risk add patch). -/
def buildLibPatches (P : PyParse) (fs : FS) (root : List String) :
    List (String × List String) → Except String (List Patch)
  | [] => .ok []
  | (mod, srcs) :: rest =>
    let content := String.intercalate "\n\n" (srcs.filter (fun s => pyStrip s ≠ ""))
    if content = "" then buildLibPatches P fs root rest
    else
      let patchE :=
        match fsLookup fs (resolveComps (joinPath root mod)) with
        | some old => createEditPatch root mod old (pyRstrip old ++ "\n\n" ++ content) "medium"
        | none => createAddFilePatch root mod content "medium"
      match patchE with
      | .error e => .error e
      | .ok p =>
        match buildLibPatches P fs root rest with
        | .error e => .error e
        | .ok ps => .ok (p :: ps)

/-- Result of `ExtractToLibEngine.extract`, with the filesystem made explicit
(it changes only in write mode). -/
structure ExtractResult where
  patches : List Patch
  extracted : List ExtractedEntry
  errors : List String
  fs : FS
deriving DecidableEq, Repr

/-- Translation of `ExtractToLibEngine.extract`: resolve clusters (running the
detector with `sno` when none are supplied — `inv` again being the external
scanner's inventory), compute the proposer's mapping (with the proposer's
default `same_name_only=False`), run the cluster loop, build the library
patches, order library patches before script patches, and in write mode hand
the list to `apply_patches` and merge its errors. -/
def extractToLib (P : PyParse) (fs : FS) (root : List String) (inv : List String)
    (clusters : Option (List Cluster)) (clusterIndices : Option (List Nat))
    (mode : String) (sno : Bool) : Except String ExtractResult :=
  let cls := match clusters with
    | none => (dupAnalyze P fs root inv [] none sno).1
    | some cs => cs
  let mapping := proposeMapping false cls
  match processClusters P fs root mapping clusterIndices 0 cls
      { scriptPatches := [], extracted := [], errors := [], libContents := [] } with
  | .error e => .error e
  | .ok st =>
    match buildLibPatches P fs root st.libContents with
    | .error e => .error e
    | .ok libPatches =>
      let patches := libPatches ++ st.scriptPatches
      if mode = "write" then
        let r := applyPatchesRun root fs patches "write"
        .ok { patches := patches, extracted := st.extracted,
              errors := st.errors ++ r.errors, fs := r.fs }
      else
        .ok { patches := patches, extracted := st.extracted, errors := st.errors, fs := fs }

/-! ## Request-dispatch layer: mode defaults (server.py) -/

/-- The default value of the `mode` parameter of every public request-dispatch
operation (MCP tool in src/foundry_mcp/server.py) that takes one, in
definition order. -/
def serverModeDefaults : List (String × String) :=
  [("generate_bundle_yaml", "dry_run"),
   ("import_audit_with_core", "dry_run"),
   ("apply_patch", "dry_run"),
   ("create_extension_config_tool", "write"),
   ("create_extension", "dry_run"),
   ("add_button", "dry_run"),
   ("extract_to_lib", "dry_run")]

/-! ## Concrete example repositories used by witnesses and counterexamples -/

/-- A file whose single function has fingerprint
"def(2):assignassignreturn" (25 characters, above the 20-character
threshold). -/
def exTextBig : String := "def foo(a, b):\n    x = 1\n    y = 2\n    return a + b\n"

/-- The parse of `exTextBig`: one function `foo` at line 1 with two arguments,
body `[assign, assign, return]`, ending at line 4. -/
def exFuncBig : FuncDef :=
  { lineno := 1, name := "foo", args := 2, body := [.assign, .assign, .ret], endLineno := some 4 }

/-- Parse oracle for the big-function repository. -/
def exParseA : PyParse := fun t => if t = exTextBig then some [exFuncBig] else none

/-- Two files, each holding one copy of the big `foo`. -/
def exFsA : FS := [(["repo", "a.py"], exTextBig), (["repo", "b.py"], exTextBig)]

/-- The end-to-end scenario file of the spec: exactly
`def foo(a, b): return a+b` over two lines. -/
def exTextSmall : String := "def foo(a, b):\n    return a+b\n"

/-- The parse of `exTextSmall`: one function `foo` at line 1, two arguments,
body `[return]`, ending at line 2.  Its fingerprint is "def(2):return",
13 characters. -/
def exFuncSmall : FuncDef :=
  { lineno := 1, name := "foo", args := 2, body := [.ret], endLineno := some 2 }

/-- Parse oracle for the spec's end-to-end scenario repository. -/
def exParseB : PyParse := fun t => if t = exTextSmall then some [exFuncSmall] else none

/-- Two files, each holding one copy of the small `foo`. -/
def exFsB : FS := [(["repo", "a.py"], exTextSmall), (["repo", "b.py"], exTextSmall)]

/-- A cluster with two locations that disagree on the function name. -/
def exMixedCluster : Cluster :=
  { hash := "h",
    locations := [{ script := "a.py", line := 1, name := "foo" },
                  { script := "b.py", line := 1, name := "bar" }] }

/-- The empty extraction state. -/
def exState0 : ExtractState :=
  { scriptPatches := [], extracted := [], errors := [], libContents := [] }

/-- The cluster the detector finds in the big-function repository. -/
def exClusterA : Cluster :=
  { hash := "def(2):assignassignreturn",
    locations := [{ script := "a.py", line := 1, name := "foo" },
                  { script := "b.py", line := 1, name := "foo" }] }

/-- The patch `create_add_file_patch` builds for the escaping path
"../repo2/x" under repository root "/repo". -/
def escapePatch : Patch :=
  { path := "../repo2/x",
    diff := makeUnifiedDiff "/repo/../repo2/x" [] ["x = 1"],
    content := some "x = 1", risk := "low", summary := "Add ../repo2/x" }

/-- Whether an `Except` value is a success. -/
def exceptOk {ε α : Type} : Except ε α → Bool
  | .ok _ => true
  | .error _ => false

/-- Decidable equality on `Except`, so that concrete runs of the fallible
operations can be checked by `decide`. -/
instance instDecEqExcept {ε α : Type} [DecidableEq ε] [DecidableEq α] :
    DecidableEq (Except ε α)
  | .ok a, .ok b =>
    if h : a = b then .isTrue (by rw [h]) else .isFalse (by simp [h])
  | .ok _, .error _ => .isFalse (by simp)
  | .error _, .ok _ => .isFalse (by simp)
  | .error e, .error f =>
    if h : e = f then .isTrue (by rw [h]) else .isFalse (by simp [h])

/-! ## Spec-side definitions (declarative counterparts used by refinement
theorems; these follow the words of the claims, not the source) -/

/-- The index of the last line satisfying `lineIsImport`, anywhere in the
file (`none` when no such line exists). -/
def lastImportIdx : List String → Option Nat
  | [] => none
  | l :: ls =>
    match lastImportIdx ls with
    | some j => some (j + 1)
    | none => if lineIsImport l then some 0 else none

/-- Modelled from the amended claim: leave the lines unchanged when some line
already contains the (stripped) import statement as a substring; otherwise
insert the import immediately after the last line anywhere in the file whose
stripped content starts with "import " or "from "; prepend it when no such
line exists. -/
def ensureImportSpec (lines : List String) (importLine : String) : List String :=
  if lines.any (fun l => strContains l (pyStrip importLine)) then lines
  else
    match lastImportIdx lines with
    | some i => lines.take (i + 1) ++ [importLine] ++ lines.drop (i + 1)
    | none => importLine :: lines

/-- The content that the last accepted patch targeting resolved path `k`
writes, scanning the patch list from the back (later patches overwrite
earlier ones). -/
def lastWriteVal (root : List String) (k : List String) : List Patch → Option String
  | [] => none
  | p :: ps =>
    match lastWriteVal root k ps with
    | some v => some v
    | none =>
      if insideRepoCheck root p.path ∧ resolveComps (joinPath root p.path) = k
      then some (patchWriteText p) else none

/-- The `applied` entries produced by one `apply_patches` run, as a function
of the patch list alone. -/
def appliedList (root : List String) (mode : String) : List Patch → List String
  | [] => []
  | p :: ps =>
    (if !insideRepoCheck root p.path then []
     else if mode = "write" then [p.path] else [p.path ++ " (dry-run)"])
      ++ appliedList root mode ps

/-- The `errors` entries produced by one `apply_patches` run, as a function of
the patch list alone. -/
def errorsList (root : List String) : List Patch → List String
  | [] => []
  | p :: ps =>
    (if !insideRepoCheck root p.path then ["Skipped " ++ p.path ++ ": outside repo"] else [])
      ++ errorsList root ps

/-! ## Helper lemmas -/

theorem mem_insertClusterDesc {x c : Cluster} {l : List Cluster}
    (h : x ∈ insertClusterDesc c l) : x = c ∨ x ∈ l := by
  induction l with
  | nil => simpa [insertClusterDesc] using h
  | cons d ds ih =>
    by_cases hc : d.locations.length ≤ c.locations.length
    · simpa [insertClusterDesc, hc] using h
    · rw [insertClusterDesc, if_neg hc] at h
      rcases List.mem_cons.mp h with h | h
      · exact Or.inr (List.mem_cons.mpr (Or.inl h))
      · rcases ih h with h | h
        · exact Or.inl h
        · exact Or.inr (List.mem_cons_of_mem _ h)

theorem mem_sortClustersDesc {x : Cluster} {l : List Cluster}
    (h : x ∈ sortClustersDesc l) : x ∈ l := by
  induction l with
  | nil => simp [sortClustersDesc] at h
  | cons c cs ih =>
    rcases mem_insertClusterDesc (l := sortClustersDesc cs) (by simpa [sortClustersDesc] using h)
      with h' | h'
    · simp [h']
    · exact List.mem_cons_of_mem _ (ih h')

theorem mem_applyLimit {x : Cluster} {lim : Option Int} {l : List Cluster}
    (h : x ∈ applyLimit lim l) : x ∈ l := by
  cases lim with
  | none => simpa [applyLimit] using h
  | some n =>
    by_cases hn : (0 : Int) < n
    · exact List.take_subset _ _ (by simpa [applyLimit, hn] using h)
    · simpa [applyLimit, hn] using h

theorem rawClusters_min_size {c : Cluster} {groups : List (ClusterKey × List Loc)}
    (h : c ∈ rawClusters groups) : 2 ≤ c.locations.length := by
  simp only [rawClusters, List.mem_map, List.mem_filter] at h
  rcases h with ⟨g, ⟨_, hg⟩, rfl⟩
  simpa using Nat.lt_iff_add_one_le.mp (by simpa using hg)

theorem pairwise_insertClusterDesc {c : Cluster} {l : List Cluster}
    (h : List.Pairwise (fun a b => b.locations.length ≤ a.locations.length) l) :
    List.Pairwise (fun a b => b.locations.length ≤ a.locations.length)
      (insertClusterDesc c l) := by
  induction l with
  | nil => simp [insertClusterDesc]
  | cons d ds ih =>
    rcases List.pairwise_cons.mp h with ⟨hd, hds⟩
    by_cases hc : d.locations.length ≤ c.locations.length
    · rw [insertClusterDesc, if_pos hc]
      refine List.pairwise_cons.mpr ⟨?_, h⟩
      intro x hx
      rcases List.mem_cons.mp hx with rfl | hx
      · exact hc
      · exact le_trans (hd x hx) hc
    · rw [insertClusterDesc, if_neg hc]
      refine List.pairwise_cons.mpr ⟨?_, ih hds⟩
      intro x hx
      rcases mem_insertClusterDesc hx with rfl | hx
      · exact Nat.le_of_not_le hc
      · exact hd x hx

theorem pairwise_sortClustersDesc (cs : List Cluster) :
    List.Pairwise (fun a b => b.locations.length ≤ a.locations.length)
      (sortClustersDesc cs) := by
  induction cs with
  | nil => simp [sortClustersDesc]
  | cons c cs ih =>
    have h1 : sortClustersDesc (c :: cs) = insertClusterDesc c (sortClustersDesc cs) := rfl
    rw [h1]
    exact pairwise_insertClusterDesc ih

theorem filter_insertClusterDesc (c : Cluster) (l : List Cluster) (n : Nat) :
    (insertClusterDesc c l).filter (fun d => d.locations.length == n)
      = if c.locations.length == n
        then c :: l.filter (fun d => d.locations.length == n)
        else l.filter (fun d => d.locations.length == n) := by
  induction l with
  | nil =>
    by_cases hcn : c.locations.length == n <;> simp [insertClusterDesc, hcn]
  | cons d ds ih =>
    by_cases hc : d.locations.length ≤ c.locations.length
    · rw [insertClusterDesc, if_pos hc]
      by_cases hcn : c.locations.length == n <;> simp [List.filter_cons, hcn]
    · rw [insertClusterDesc, if_neg hc]
      by_cases hcn : c.locations.length == n
      · have hcn' : c.locations.length = n := by simpa using hcn
        have hdn : d.locations.length ≠ n := by omega
        simp [List.filter_cons, hdn, ih, hcn]
      · simp [List.filter_cons, ih, hcn]

theorem stable_sortClustersDesc (cs : List Cluster) (n : Nat) :
    (sortClustersDesc cs).filter (fun d => d.locations.length == n)
      = cs.filter (fun d => d.locations.length == n) := by
  induction cs with
  | nil => rfl
  | cons c cs ih =>
    have h1 : sortClustersDesc (c :: cs) = insertClusterDesc c (sortClustersDesc cs) := rfl
    rw [h1, filter_insertClusterDesc]
    by_cases hcn : c.locations.length == n <;> simp [List.filter_cons, hcn, ih]

theorem charListHasLead_append (xs ys : List Char) :
    charListHasLead xs (xs ++ ys) = true := by
  induction xs with
  | nil => rfl
  | cons a as ih => simp [charListHasLead, ih]

theorem charListContains_append (pre xs post : List Char) :
    charListContains xs (pre ++ (xs ++ post)) = true := by
  induction pre with
  | nil =>
    cases xs with
    | nil => cases post <;> simp [charListContains, charListHasLead]
    | cons c cs =>
      simp only [List.nil_append, List.cons_append, charListContains]
      have := charListHasLead_append (c :: cs) post
      simp only [List.cons_append] at this
      simp [this]
  | cons p ps ih => simp [charListContains, ih]

theorem strContains_of_data (s n : String) (p q : List Char)
    (h : s.data = p ++ (n.data ++ q)) : strContains s n = true := by
  rw [strContains, h]
  exact charListContains_append p n.data q

theorem quoteJoin_decomp {n : String} {l : List String} (h : n ∈ l) :
    ∃ p q, (quoteJoin l).data = p ++ (n.data ++ q) := by
  induction l with
  | nil => cases h
  | cons m rest ih =>
    rcases List.mem_cons.mp h with rfl | h
    · cases rest with
      | nil =>
        refine ⟨"\x27".data, "\x27".data, ?_⟩
        simp [quoteJoin, String.data_append]
      | cons r rs =>
        refine ⟨"\x27".data, ("\x27" ++ ", " ++ quoteJoin (r :: rs)).data, ?_⟩
        show (("\x27" ++ n ++ "\x27" ++ ", " ++ quoteJoin (r :: rs))).data = _
        simp [String.data_append]
    · cases rest with
      | nil => cases h
      | cons r rs =>
        rcases ih h with ⟨p, q, hpq⟩
        refine ⟨("\x27" ++ m ++ "\x27" ++ ", ").data ++ p, q, ?_⟩
        show (("\x27" ++ m ++ "\x27" ++ ", " ++ quoteJoin (r :: rs))).data = _
        simp [String.data_append, hpq]

theorem mem_insertStr_self (s : String) (l : List String) : s ∈ insertStr s l := by
  induction l with
  | nil => simp [insertStr]
  | cons t ts ih =>
    by_cases h : strLtB s t <;> simp [insertStr, h, ih]

theorem mem_insertStr_of_mem {x : String} (s : String) {l : List String}
    (h : x ∈ l) : x ∈ insertStr s l := by
  induction l with
  | nil => cases h
  | cons t ts ih =>
    by_cases hst : strLtB s t
    · rw [insertStr, if_pos hst]
      exact List.mem_cons_of_mem _ h
    · rcases List.mem_cons.mp h with rfl | h
      · simp [insertStr, hst]
      · simp [insertStr, hst, ih h]

theorem mem_sortStrings {x : String} {l : List String} (h : x ∈ l) :
    x ∈ sortStrings l := by
  induction l with
  | nil => cases h
  | cons s ss ih =>
    have h1 : sortStrings (s :: ss) = insertStr s (sortStrings ss) := rfl
    rw [h1]
    rcases List.mem_cons.mp h with rfl | h
    · exact mem_insertStr_self x _
    · exact mem_insertStr_of_mem s (ih h)

theorem mixedNamesMsg_mentions {idx : Nat} {names : List String} {n : String}
    (h : n ∈ names) : strContains (mixedNamesMsg idx names) n = true := by
  rcases quoteJoin_decomp (mem_sortStrings h) with ⟨p, q, hpq⟩
  refine strContains_of_data _ _
    (("Cluster " ++ toString idx ++ ": mixed function names " ++ "[").data ++ p)
    (q ++ ("]" ++ " (extract only same-name clusters)").data) ?_
  show (("Cluster " ++ toString idx ++ ": mixed function names "
    ++ pyStrListRepr (sortStrings names) ++ " (extract only same-name clusters)")).data = _
  simp [pyStrListRepr, String.data_append, hpq]

theorem ensureImportLoop_eq (s : String) (lines : List String) (i : Nat) (last : Option Nat) :
    ensureImportLoop s lines i last
      = if lines.any (fun l => strContains l s) then none
        else some (match lastImportIdx lines with
                   | some j => some (i + j)
                   | none => last) := by
  induction lines generalizing i last with
  | nil => simp [ensureImportLoop, lastImportIdx]
  | cons l ls ih =>
    by_cases hcont : strContains l s
    · simp [ensureImportLoop, hcont]
    · rw [ensureImportLoop]
      simp only [hcont, if_false]
      rw [ih]
      by_cases hany : ls.any (fun l => strContains l s)
      · simp [hany, hcont, List.any_cons]
      · simp only [List.any_cons, hcont, hany, Bool.false_or, if_neg, Bool.false_eq_true,
          not_false_eq_true]
        rw [lastImportIdx]
        cases hlast : lastImportIdx ls with
        | some j => simp [Nat.add_assoc, Nat.add_comm 1 j]
        | none => by_cases himp : lineIsImport l <;> simp [himp]

theorem fsLookup_fsWrite (fs : FS) (key k : List String) (v : String) :
    fsLookup (fsWrite fs key v) k = if key = k then some v else fsLookup fs k := by
  induction fs with
  | nil =>
    by_cases h : key = k <;> simp [fsWrite, fsLookup, h]
  | cons e rest ih =>
    obtain ⟨ek, et⟩ := e
    by_cases hek : ek = key
    · subst hek
      by_cases h : ek = k <;> simp [fsWrite, fsLookup, h]
    · by_cases h : ek = k
      · subst h
        have : ¬ key = ek := fun hh => hek hh.symm
        simp [fsWrite, fsLookup, hek, this]
      · simp [fsWrite, fsLookup, hek, h, ih]

theorem foldl_apply_applied (root : List String) (mode : String) (ps : List Patch)
    (acc : ApplyResult) :
    (ps.foldl (applyPatchStep root mode) acc).applied
      = acc.applied ++ appliedList root mode ps := by
  induction ps generalizing acc with
  | nil => simp [appliedList]
  | cons p ps ih =>
    rw [List.foldl_cons, ih]
    by_cases hchk : insideRepoCheck root p.path
    · by_cases hm : mode = "write" <;>
        simp [applyPatchStep, appliedList, hchk, hm, List.append_assoc]
    · simp [applyPatchStep, appliedList, hchk, List.append_assoc]

theorem foldl_apply_errors (root : List String) (mode : String) (ps : List Patch)
    (acc : ApplyResult) :
    (ps.foldl (applyPatchStep root mode) acc).errors
      = acc.errors ++ errorsList root ps := by
  induction ps generalizing acc with
  | nil => simp [errorsList]
  | cons p ps ih =>
    rw [List.foldl_cons, ih]
    by_cases hchk : insideRepoCheck root p.path
    · by_cases hm : mode = "write" <;>
        simp [applyPatchStep, errorsList, hchk, hm, List.append_assoc]
    · simp [applyPatchStep, errorsList, hchk, List.append_assoc]

theorem foldl_apply_fs_nonwrite (root : List String) (mode : String) (hm : mode ≠ "write")
    (ps : List Patch) (acc : ApplyResult) :
    (ps.foldl (applyPatchStep root mode) acc).fs = acc.fs := by
  induction ps generalizing acc with
  | nil => rfl
  | cons p ps ih =>
    rw [List.foldl_cons, ih]
    by_cases hchk : insideRepoCheck root p.path <;> simp [applyPatchStep, hchk, hm]

theorem foldl_apply_fs_write (root k : List String) (ps : List Patch)
    (acc : ApplyResult) :
    fsLookup (ps.foldl (applyPatchStep root "write") acc).fs k
      = match lastWriteVal root k ps with
        | some v => some v
        | none => fsLookup acc.fs k := by
  induction ps generalizing acc with
  | nil => simp [lastWriteVal]
  | cons p ps ih =>
    rw [List.foldl_cons, ih, lastWriteVal]
    cases hlw : lastWriteVal root k ps with
    | some v => simp
    | none =>
      by_cases hchk : insideRepoCheck root p.path
      · by_cases hkey : resolveComps (joinPath root p.path) = k
        · simp [applyPatchStep, hchk, hkey, fsLookup_fsWrite]
        · simp [applyPatchStep, hchk, hkey, fsLookup_fsWrite]
      · simp [applyPatchStep, hchk]

theorem appliedList_dry (root : List String) (ps : List Patch) :
    appliedList root "dry_run" ps
      = (ps.filter (fun p => insideRepoCheck root p.path)).map
          (fun p => p.path ++ " (dry-run)") := by
  induction ps with
  | nil => rfl
  | cons p ps ih =>
    by_cases hchk : insideRepoCheck root p.path <;>
      simp [appliedList, List.filter_cons, hchk, ih]

theorem errorsList_eq (root : List String) (ps : List Patch) :
    errorsList root ps
      = (ps.filter (fun p => !insideRepoCheck root p.path)).map
          (fun p => "Skipped " ++ p.path ++ ": outside repo") := by
  induction ps with
  | nil => rfl
  | cons p ps ih =>
    by_cases hchk : insideRepoCheck root p.path <;>
      simp [errorsList, List.filter_cons, hchk, ih]

/-! ## Claim theorems -/

/-- C1: the spec demands that every patch path resolved against the
repository root stays strictly inside the root, and that escaping paths are
rejected at creation and at application.  The code's own intent (the
`ValueError("Path outside repo_root")` and the "outside repo" error entry)
agrees, but the `str(resolved).startswith(str(root))` comparison is a string
prefix check, not a component check: under root "/repo", the relative path
"../repo2/x" resolves to "/repo2/x" — outside the root — yet passes the check,
so patch creation succeeds and `apply_patches` applies it (writing outside the
root in write mode) with no error, in both modes. -/
theorem c1_containment_prefix_bug_eval :
    insideRepoCheck ["repo"] "../repo2/x" = true
    ∧ resolveComps (joinPath ["repo"] "../repo2/x") = ["repo2", "x"]
    ∧ ¬ isStrictDescendant ["repo"] ["repo2", "x"]
    ∧ createAddFilePatch ["repo"] "../repo2/x" "x = 1" "low" = .ok escapePatch
    ∧ exceptOk (createEditPatch ["repo"] "../repo2/x" "" "x = 1" "high") = true
    ∧ applyPatchesRun ["repo"] [] [escapePatch] "dry_run"
        = { applied := ["../repo2/x (dry-run)"], errors := [], fs := [] }
    ∧ applyPatchesRun ["repo"] [] [escapePatch] "write"
        = { applied := ["../repo2/x"], errors := [], fs := [(["repo2", "x"], "x = 1")] }
    ∧ listLeads ["repo"] ["repo2", "x"] = false := by
  decide

/-- C2 (counterexample): in the spec's end-to-end scenario — two files each
defining exactly `def foo(a, b): return a+b` — the normalized fingerprint is
"def(2):return", 13 characters, below the analyzer's 20-character threshold,
so `analyze(sameNameOnly=true)` returns no cluster at all instead of the one
2-location cluster the claim asserts. -/
theorem c2_scenario_counterexample :
    (normalizeFunc exFuncSmall).length = 13
    ∧ (dupAnalyze exParseB exFsB ["repo"] [] ["a.py", "b.py"] none true).1 = [] := by
  decide

/-- C2 (amended): on that two-file repository, `analyze(sameNameOnly=true)`
returns zero clusters (the 13-character fingerprint falls below the
20-character threshold), and `extract` in simulate mode therefore returns 0
patches, 0 extracted entries and 0 errors, leaving the filesystem unchanged. -/
theorem c2_scenario_amended :
    (dupAnalyze exParseB exFsB ["repo"] [] ["a.py", "b.py"] none true).1 = []
    ∧ extractToLib exParseB exFsB ["repo"] ["a.py", "b.py"] none none "dry_run" true
        = .ok { patches := [], extracted := [], errors := [], fs := exFsB } := by
  decide

/-- C3: a selected cluster of two or more locations carrying two or more
distinct function names makes the extraction engine's cluster step append
exactly one error — which mentions every one of the mismatched names — while
leaving the patches, extracted entries and module accumulator untouched, and
the cluster loop then continues with the remaining clusters from that state. -/
theorem c3_mixed_name_cluster_rejected
    (P : PyParse) (fs : FS) (root : List String) (mapping : List MapEntry)
    (ci : Option (List Nat)) (idx : Nat) (st : ExtractState) (c : Cluster)
    (rest : List Cluster)
    (hsel : idxSelected ci idx = true)
    (hlen : 2 ≤ c.locations.length)
    (hmix : 2 ≤ ((c.locations.map Loc.name).dedup).length) :
    clusterStep P fs root mapping ci st idx c
      = .ok { st with errors := st.errors
          ++ [mixedNamesMsg idx ((c.locations.map Loc.name).dedup)] }
    ∧ (∀ n ∈ (c.locations.map Loc.name).dedup,
        strContains (mixedNamesMsg idx ((c.locations.map Loc.name).dedup)) n = true)
    ∧ processClusters P fs root mapping ci idx (c :: rest) st
        = processClusters P fs root mapping ci (idx + 1) rest
            { st with errors := st.errors
                ++ [mixedNamesMsg idx ((c.locations.map Loc.name).dedup)] } := by
  have hnl : ¬ c.locations.length < 2 := Nat.not_lt.mpr hlen
  have hgt : 1 < ((c.locations.map Loc.name).dedup).length :=
    lt_of_lt_of_le one_lt_two hmix
  have h1 : clusterStep P fs root mapping ci st idx c
      = .ok { st with errors := st.errors
          ++ [mixedNamesMsg idx ((c.locations.map Loc.name).dedup)] } := by
    rw [clusterStep]
    simp [hsel, hnl, hgt]
  refine ⟨h1, fun n hn => mixedNamesMsg_mentions hn, ?_⟩
  rw [processClusters, h1]

/-- Witness for C3: a concrete cluster naming both `foo` and `bar` is rejected
with exactly the mixed-names error and nothing else. -/
theorem c3_witness :
    clusterStep exParseB exFsB ["repo"] [] none exState0 0 exMixedCluster
      = .ok { exState0 with errors := exState0.errors
          ++ [mixedNamesMsg 0 ((exMixedCluster.locations.map Loc.name).dedup)] } :=
  (c3_mixed_name_cluster_rejected exParseB exFsB ["repo"] [] none 0 exState0
    exMixedCluster [] (by decide) (by decide) (by decide)).1

/-- C4: every cluster (and every finding) the duplicate analyzer returns has
at least two locations, for every filesystem, parse oracle, inventory, path
list, limit and flag combination. -/
theorem c4_clusters_have_min_two_locations
    (P : PyParse) (fs : FS) (root inv sps : List String) (lim : Option Int) (sno : Bool) :
    (∀ c ∈ (dupAnalyze P fs root inv sps lim sno).1, 2 ≤ c.locations.length)
    ∧ (∀ f ∈ (dupAnalyze P fs root inv sps lim sno).2, 2 ≤ f.cluster.locations.length) := by
  have key : ∀ c ∈ (dupAnalyze P fs root inv sps lim sno).1, 2 ≤ c.locations.length := by
    intro c hc
    have hc' : c ∈ finalClusters
        (flatRecords P fs root (if sps.isEmpty then inv else sps)) lim sno := hc
    exact rawClusters_min_size (mem_sortClustersDesc (mem_applyLimit hc'))
  refine ⟨key, ?_⟩
  intro f hf
  have hf' : f ∈ (finalClusters
      (flatRecords P fs root (if sps.isEmpty then inv else sps)) lim sno).map
      (fun c => ({ ftype := "duplicate", cluster := c,
                   count := c.locations.length } : Finding)) := hf
  rcases List.mem_map.mp hf' with ⟨c, hc, rfl⟩
  exact key c hc

/-- Witness for C4: the cluster found in the two-file big-function repository
has exactly two locations. -/
theorem c4_witness : 2 ≤ exClusterA.locations.length :=
  (c4_clusters_have_min_two_locations exParseA exFsA ["repo"] [] ["a.py", "b.py"]
    none true).1 exClusterA (by decide)

/-- C5: a function whose normalized fingerprint is shorter than 20 characters
contributes no location to any key: the grouping loop is unchanged by deleting
all such records first, and hence `analyze` computes exactly the result it
would compute on the below-threshold records removed. -/
theorem c5_short_fingerprints_excluded :
    (∀ (sno : Bool) (recs : List FnRec) (acc : List (ClusterKey × List Loc)),
      groupRecords sno recs acc
        = groupRecords sno (recs.filter (fun r => decide (20 ≤ r.body.length))) acc)
    ∧ (∀ (P : PyParse) (fs : FS) (root inv sps : List String) (lim : Option Int) (sno : Bool),
      dupAnalyze P fs root inv sps lim sno
        = analyzeRecords
            ((flatRecords P fs root (if sps.isEmpty then inv else sps)).filter
              (fun r => decide (20 ≤ r.body.length))) lim sno) := by
  have key : ∀ (sno : Bool) (recs : List FnRec) (acc : List (ClusterKey × List Loc)),
      groupRecords sno recs acc
        = groupRecords sno (recs.filter (fun r => decide (20 ≤ r.body.length))) acc := by
    intro sno recs
    induction recs with
    | nil => intro acc; rfl
    | cons r rs ih =>
      intro acc
      by_cases h : r.body.length < 20
      · have hd : ¬ 20 ≤ r.body.length := by omega
        simp only [groupRecords, if_pos h, List.filter_cons, decide_eq_false hd,
          Bool.false_eq_true, if_false]
        exact ih acc
      · have hd : 20 ≤ r.body.length := by omega
        simp only [groupRecords, if_neg h, List.filter_cons, decide_eq_true hd, if_true]
        exact ih _
  refine ⟨key, ?_⟩
  intro P fs root inv sps lim sno
  rw [dupAnalyze, analyzeRecords, analyzeRecords, finalClusters, finalClusters, key]

/-- C6: the analyzer's cluster list is sorted descending by location count,
the sort is stable (for every size, the subsequence of clusters of that size
equals the pre-sort, first-encounter-ordered subsequence), a positive limit
truncates the sorted list to its first `limit` entries, and a non-positive or
absent limit returns the whole sorted list. -/
theorem c6_sorted_stable_limited :
    (∀ (recs : List FnRec) (lim : Option Int) (sno : Bool),
      List.Pairwise (fun a b => b.locations.length ≤ a.locations.length)
        (analyzeRecords recs lim sno).1)
    ∧ (∀ (cs : List Cluster) (n : Nat),
      (sortClustersDesc cs).filter (fun d => d.locations.length == n)
        = cs.filter (fun d => d.locations.length == n))
    ∧ (∀ (recs : List FnRec) (sno : Bool) (l : Int),
      (analyzeRecords recs (some l) sno).1
        = if 0 < l
          then (sortClustersDesc (rawClusters (groupRecords sno recs []))).take l.toNat
          else sortClustersDesc (rawClusters (groupRecords sno recs [])))
    ∧ (∀ (recs : List FnRec) (sno : Bool),
      (analyzeRecords recs none sno).1
        = sortClustersDesc (rawClusters (groupRecords sno recs []))) := by
  refine ⟨?_, stable_sortClustersDesc, ?_, ?_⟩
  · intro recs lim sno
    have hs := pairwise_sortClustersDesc (rawClusters (groupRecords sno recs []))
    show List.Pairwise _ (finalClusters recs lim sno)
    rw [finalClusters]
    cases lim with
    | none => exact hs
    | some l =>
      by_cases hl : (0 : Int) < l
      · rw [applyLimit, if_pos hl]
        exact hs.sublist (List.take_sublist _ _)
      · rw [applyLimit, if_neg hl]
        exact hs
  · intro recs sno l
    show finalClusters recs (some l) sno = _
    rw [finalClusters, applyLimit]
  · intro recs sno
    rfl

/-- C7 (counterexample): the injected import goes after the very last
line anywhere in the file that looks like an import, not after the last
top-of-file one; with a non-import statement between two imports, the
injected line lands after the final import at the bottom, not right after
the top-of-file block of imports. -/
theorem c7_import_placement_counterexample :
    ensureImport ["import a", "x = 1", "import b"] "from lib.utils import foo"
      = ["import a", "x = 1", "import b", "from lib.utils import foo"]
    ∧ ["import a", "x = 1", "import b", "from lib.utils import foo"]
      ≠ ["import a", "from lib.utils import foo", "x = 1", "import b"] := by
  decide

/-- C7 (amended): `_ensure_import` leaves the lines unchanged when some line
already contains the stripped import statement as a substring; otherwise it
inserts the import immediately after the last line anywhere in the file whose
stripped content starts with "import " or "from ", prepending it when no such
line exists. -/
theorem c7_import_injection_amended :
    ∀ (lines : List String) (importLine : String),
      ensureImport lines importLine = ensureImportSpec lines importLine := by
  intro lines imp
  rw [ensureImport, ensureImportSpec, ensureImportLoop_eq]
  by_cases hany : (lines.any fun l => strContains l (pyStrip imp)) = true
  · rw [if_pos hany, if_pos hany]
  · rw [if_neg hany, if_neg hany]
    cases h : lastImportIdx lines with
    | some j => simp [Nat.zero_add]
    | none => rfl

/-- C8 (counterexample): not every public operation taking a mode parameter
defaults it to simulate — `create_extension_config_tool` defaults to write. -/
theorem c8_mode_default_counterexample :
    ("create_extension_config_tool", "write") ∈ serverModeDefaults
    ∧ serverModeDefaults.all (fun p => p.2 == "dry_run") = false := by
  decide

/-- C8 (amended): every public operation taking a mode parameter except
`create_extension_config_tool` (which defaults to write) defaults it to
simulate, and in simulate mode `apply_patches` changes no file: the
filesystem is returned untouched, every accepted patch is reported with its
path suffixed " (dry-run)", and containment failures are still reported in
`errors`. -/
theorem c8_simulate_is_default_amended :
    ((serverModeDefaults.filter
        (fun p => p.1 != "create_extension_config_tool")).all
      (fun p => p.2 == "dry_run")) = true
    ∧ ("create_extension_config_tool", "write") ∈ serverModeDefaults
    ∧ (∀ (root : List String) (fs : FS) (patches : List Patch),
        (applyPatchesRun root fs patches "dry_run").fs = fs
        ∧ (applyPatchesRun root fs patches "dry_run").applied
            = (patches.filter (fun p => insideRepoCheck root p.path)).map
                (fun p => p.path ++ " (dry-run)")
        ∧ (applyPatchesRun root fs patches "dry_run").errors
            = (patches.filter (fun p => !insideRepoCheck root p.path)).map
                (fun p => "Skipped " ++ p.path ++ ": outside repo")) := by
  refine ⟨by decide, by decide, ?_⟩
  intro root fs patches
  refine ⟨foldl_apply_fs_nonwrite root "dry_run" (by decide) patches _, ?_, ?_⟩
  · rw [applyPatchesRun, foldl_apply_applied, appliedList_dry]
    simp
  · rw [applyPatchesRun, foldl_apply_errors, errorsList_eq]
    simp

/-- C9: applying the same patch list twice in commit (write) mode is
idempotent at the file-content level: after the second run every path holds
exactly the content it held after the first run, and the second run reports
the same applied paths and errors. -/
theorem c9_commit_mode_idempotent :
    ∀ (root : List String) (fs : FS) (patches : List Patch) (k : List String),
      fsLookup (applyPatchesRun root (applyPatchesRun root fs patches "write").fs
          patches "write").fs k
        = fsLookup (applyPatchesRun root fs patches "write").fs k
      ∧ (applyPatchesRun root (applyPatchesRun root fs patches "write").fs
          patches "write").applied
          = (applyPatchesRun root fs patches "write").applied
      ∧ (applyPatchesRun root (applyPatchesRun root fs patches "write").fs
          patches "write").errors
          = (applyPatchesRun root fs patches "write").errors := by
  intro root fs ps k
  refine ⟨?_, ?_, ?_⟩
  · rw [applyPatchesRun, applyPatchesRun, foldl_apply_fs_write, foldl_apply_fs_write]
    cases h : lastWriteVal root k ps with
    | some v => simp
    | none => simp
  · rw [applyPatchesRun, applyPatchesRun, foldl_apply_applied, foldl_apply_applied]
  · rw [applyPatchesRun, applyPatchesRun, foldl_apply_errors, foldl_apply_errors]

/-- C10: in the extraction engine's per-location loop, a location whose file
does not exist, or whose file the removal attempt leaves unchanged (no
matching function at the recorded line), is skipped silently — no patch, no
extracted entry, no error; indeed the location loop never appends to `errors`
at all (only canonical-location and cluster-level failures do). -/
theorem c10_noncanonical_failures_silent
    (P : PyParse) (fs : FS) (root : List String) (mod : String)
    (st : ExtractState) (loc : Loc)
    (h : ∀ text, fsLookup fs (resolveComps (joinPath root loc.script)) = some text →
        removeFunctionFromSource P text loc.name loc.line = text) :
    locStep P fs root mod st loc = .ok st
    ∧ (∀ (P2 : PyParse) (fs2 : FS) (root2 : List String) (mod2 : String)
        (st2 : ExtractState) (loc2 : Loc) (st2' : ExtractState),
        locStep P2 fs2 root2 mod2 st2 loc2 = .ok st2' → st2'.errors = st2.errors) := by
  constructor
  · rw [locStep]
    by_cases hs : loc.script = ""
    · simp [hs]
    · simp only [hs, if_false]
      cases hl : fsLookup fs (resolveComps (joinPath root loc.script)) with
      | none => rfl
      | some text => simp [h text hl]
  · intro P2 fs2 root2 mod2 st2 loc2 st2' hstep
    simp only [locStep] at hstep
    split at hstep
    · simp only [Except.ok.injEq] at hstep
      subst hstep
      rfl
    · split at hstep
      · simp only [Except.ok.injEq] at hstep
        subst hstep
        rfl
      · split at hstep
        · simp only [Except.ok.injEq] at hstep
          subst hstep
          rfl
        · split at hstep
          · exact Except.noConfusion hstep
          · simp only [Except.ok.injEq] at hstep
            subst hstep
            rfl

/-- Witness for C10: a location naming a file absent from an empty filesystem
is skipped with the state returned untouched. -/
theorem c10_witness :
    locStep exParseB [] ["repo"] "lib/utils.py" exState0
      { script := "a.py", line := 1, name := "foo" } = .ok exState0 :=
  (c10_noncanonical_failures_silent exParseB [] ["repo"] "lib/utils.py" exState0
    { script := "a.py", line := 1, name := "foo" }
    (fun _ hx => nomatch hx)).1

end Foundry

